import Mathlib

/-!
# CapEdge client — verification of the response mapper and transcript extractor

A shallow embedding of the CapEdge API client (`capedge_client/__init__.py`)
and its transcript HTML extraction routine
(`examples/fetch_recent_transcripts.py` / `examples/fetch_transcript.py`).

JSON payloads are modelled by the inductive `Json` (numbers as `Int`: every
field the client inspects numerically is an integer CIK).  Python failure
modes (`KeyError`, `TypeError`, `ValueError`, HTTP errors, the session-expired
`ValueError`, JSON decode errors) are the constructors of `Err`; fallible
Python code becomes `Except Err`.  HTML documents are modelled by the
inductive `Node` (BeautifulSoup tags and navigable strings).
-/

namespace CapEdge

/-- A decoded JSON value, as produced by `response.json()`.  Numbers are
modelled as `Int` (the client never inspects a fractional number). -/
inductive Json where
  | null
  | bool (b : Bool)
  | num (n : Int)
  | str (s : String)
  | arr (elems : List Json)
  | obj (fields : List (String × Json))
deriving Inhabited

/-- The failure taxonomy of the client, one constructor per distinct Python
exception the embedded code can raise:
`httpError` = `requests.HTTPError` from `raise_for_status`;
`sessionExpired` = the `ValueError("Session expired or invalid ...")` raised
by `_request` on an HTML body; `jsonDecodeError` = failure of
`response.json()`; `keyError`/`typeError`/`valueError`/`attributeError` =
the corresponding built-in Python exceptions raised by subscripting,
`int(...)` and `.get(...)`. -/
inductive Err where
  | httpError (status : Nat)
  | sessionExpired
  | jsonDecodeError
  | keyError (key : String)
  | typeError
  | valueError
  | attributeError
deriving Repr, DecidableEq

/-! ## Python primitives used by the client (string and dict operations) -/

/-- Python `s.startswith(pre)`. -/
def pyStartswith (s pre : String) : Bool :=
  pre.toList.isPrefixOf s.toList

/-- Python `s.strip()` (also bs4 `get_text(strip=True)` fragment stripping):
drop whitespace from both ends. -/
def pyStrip (s : String) : String :=
  ⟨((s.toList.dropWhile Char.isWhitespace).reverse.dropWhile Char.isWhitespace).reverse⟩

/-- Python `s.split("; ")` on a character list: split at every
(non-overlapping, leftmost-first) occurrence of the two-character separator
`"; "`.  Specialised to the separator the client uses so the recursion is
structural. -/
def splitSemiSpaceAux : List Char → List Char → List (List Char)
  | acc, [] => [acc.reverse]
  | acc, ';' :: ' ' :: rest => acc.reverse :: splitSemiSpaceAux [] rest
  | acc, c :: rest => splitSemiSpaceAux (c :: acc) rest

/-- Python `cookie_string.split("; ")`. -/
def splitSemiSpace (s : String) : List String :=
  (splitSemiSpaceAux [] s.toList).map List.asString

/-- Python `"=" in item`. -/
def containsEq (item : String) : Bool :=
  item.toList.contains '='

/-- Python `item.split("=", 1)`: the part before the first `'='` and the part
after it (only meaningful when the item contains `'='`). -/
def splitEqOnce (item : String) : String × String :=
  (⟨item.toList.takeWhile (fun c => c ≠ '=')⟩,
   ⟨((item.toList.dropWhile (fun c => c ≠ '=')).drop 1)⟩)

/-- Python `dict` insertion `d[k] = v`: replace the value in place if the key
is present, otherwise append (insertion order preserved). -/
def dictInsert : List (String × String) → String → String → List (String × String)
  | [], k, v => [(k, v)]
  | (k', v') :: rest, k, v =>
      if k' = k then (k', v) :: rest else (k', v') :: dictInsert rest k v

/-- Embeds `CapEdgeClient.from_cookie_string`: split the cookie header on `"; "`,
keep only segments containing `'='`, split each at its first `'='`, and build
the cookie dict left to right. -/
def from_cookie_string (cookie_string : String) : List (String × String) :=
  (splitSemiSpace cookie_string).foldl
    (fun cookies item =>
      if containsEq item then
        let kv := splitEqOnce item
        dictInsert cookies kv.1 kv.2
      else cookies)
    []

/-! ## The request layer (`CapEdgeClient._request`) -/

/-- An HTTP response as the client sees it: `requests`' status code and the
decoded body text. -/
structure HttpResponse where
  status : Nat
  text : String

/-- The check `response.text.startswith("<!DOCTYPE html>") or
response.text.startswith("<html")`. -/
def isHtmlBody (body : String) : Bool :=
  pyStartswith body "<!DOCTYPE html>" || pyStartswith body "<html"

/-- Embeds `CapEdgeClient._request`, after the GET has produced `resp`.  The JSON
decoder backing `response.json()` is passed in as `decode` (it is library
code external to the repository); `decode` is consulted only on the success
path.  `raise_for_status` raises `requests.HTTPError` exactly for status
codes in `[400, 600)`. -/
def raw_request (decode : String → Option Json) (resp : HttpResponse) :
    Except Err Json :=
  if 400 ≤ resp.status ∧ resp.status < 600 then
    Except.error (Err.httpError resp.status)
  else if isHtmlBody resp.text then
    Except.error Err.sessionExpired
  else
    match decode resp.text with
    | some j => Except.ok j
    | none => Except.error Err.jsonDecodeError

/-! ## Python access to decoded JSON (dict subscripting and `.get`) -/

/-- Lookup of key `k` in a decoded JSON value, when it is an object. -/
def lookupField (j : Json) (k : String) : Option Json :=
  match j with
  | Json.obj fields => fields.lookup k
  | _ => none

/-- Python `item[k]` on a decoded JSON value: `KeyError` on a missing key,
`TypeError` when `item` is not a dict. -/
def pyIndex (j : Json) (k : String) : Except Err Json :=
  match j with
  | Json.obj fields =>
      match fields.lookup k with
      | some v => Except.ok v
      | none => Except.error (Err.keyError k)
  | _ => Except.error Err.typeError

/-- Python `item.get(k, d)`: the stored value when the key is present, the
default otherwise; `AttributeError` when `item` is not a dict.  (JSON `null`
decodes to Python `None`, which `Json.null` represents directly.) -/
def pyGetD (j : Json) (k : String) (d : Json) : Except Err Json :=
  match j with
  | Json.obj fields => Except.ok ((fields.lookup k).getD d)
  | _ => Except.error Err.attributeError

/-- Whether a decoded JSON value is a dict carrying key `k`. -/
def hasKey (j : Json) (k : String) : Bool :=
  match j with
  | Json.obj fields => (fields.lookup k).isSome
  | _ => false

/-- Python `for item in xs`-style iteration source: the elements when the
value is a JSON array, `TypeError` otherwise. -/
def asArr (j : Json) : Except Err (List Json) :=
  match j with
  | Json.arr elems => Except.ok elems
  | _ => Except.error Err.typeError

/-- Python `int(x)` on a character list already stripped of whitespace:
an optional sign followed by at least one digit; anything else is a
`ValueError`. -/
def pyIntDigits (cs : List Char) : Except Err Int :=
  if cs ≠ [] ∧ cs.all Char.isDigit then
    Except.ok (cs.foldl (fun acc c => acc * 10 + (c.toNat - '0'.toNat : Int)) 0)
  else
    Except.error Err.valueError

/-- Python `int(x)` on a decoded JSON value: numbers pass through, booleans
become 0/1, strings are parsed (optional sign, digits, surrounding
whitespace allowed; `ValueError` otherwise), anything else is a
`TypeError`. -/
def pyInt (j : Json) : Except Err Int :=
  match j with
  | Json.num n => Except.ok n
  | Json.bool b => Except.ok (if b then 1 else 0)
  | Json.str s =>
      match (pyStrip s).toList with
      | '-' :: cs => (pyIntDigits cs).map Int.neg
      | '+' :: cs => pyIntDigits cs
      | cs => pyIntDigits cs
  | _ => Except.error Err.typeError

/-- The Python `for`-loop-with-`append` pattern the client uses over payload
items: map `f` over the list, stopping at the first exception. -/
def collectMapped {α β : Type} (f : α → Except Err β) : List α → Except Err (List β)
  | [] => Except.ok []
  | x :: xs => do
      let y ← f x
      let ys ← collectMapped f xs
      Except.ok (y :: ys)

/-! ## The response mapper -/

/-- A `Company`: one company search result.  Field values are stored exactly as
decoded from the payload (the Python dataclass performs no runtime type
checking), so each field holds a `Json` value. -/
structure Company where
  cik : Json
  name : Json
  ticker : Json

/-- A `Transcript`: earnings call transcript metadata, one instance per listing
item, fields stored exactly as decoded. -/
structure Transcript where
  id : Json
  company_name : Json
  cik : Json
  ticker : Json
  year : Json
  quarter : Json
  title : Json
  date : Json
  transcript_url : Json
  exchange : Json
  market_cap : Json

/-- The dictionary `get_transcripts` returns: upstream `total` and the mapped
records. -/
structure PagedResult where
  total : Json
  data : List Transcript

/-- The body of `search_company`'s list comprehension: map one search payload
item to a `Company` (`value`→cik, `label`→name, `tradingSymbol`→ticker,
absent ticker → `None`). -/
def mapCompanyItem (item : Json) : Except Err Company := do
  let v ← pyIndex item "value"
  let l ← pyIndex item "label"
  let t ← pyGetD item "tradingSymbol" Json.null
  Except.ok { cik := v, name := l, ticker := t }

/-- Embeds `CapEdgeClient.search_company`, applied to the decoded payload returned
by `_request("search/company", ...)`. -/
def search_company (payload : Json) : Except Err (List Company) := do
  let d ← pyGetD payload "data" (Json.arr [])
  let items ← asArr d
  collectMapped mapCompanyItem items

/-- Embeds `CapEdgeClient.find_company_cik`, applied to the decoded search payload:
`int(companies[0].cik)` when the search result list is non-empty (Python
truthiness of a list), `None` otherwise. -/
def find_company_cik (payload : Json) : Except Err (Option Int) := do
  let companies ← search_company payload
  match companies with
  | [] => Except.ok none
  | c :: _ => do
      let n ← pyInt c.cik
      Except.ok (some n)

/-- The loop body of `get_transcripts`: map one listing payload item to a
`Transcript`.  Required fields are subscripted (`KeyError` when missing);
`ticker` defaults to `""`, `exchange` and `marketCap` to `None`.  Reads
appear in the source argument order. -/
def mapTranscriptItem (item : Json) : Except Err Transcript := do
  let i ← pyIndex item "id"
  let company1 ← pyIndex item "company"
  let cname ← pyIndex company1 "name"
  let company2 ← pyIndex item "company"
  let ccik ← pyIndex company2 "cik"
  let tick ← pyGetD item "ticker" (Json.str "")
  let y ← pyIndex item "year"
  let q ← pyIndex item "quarter"
  let ttl ← pyIndex item "title"
  let dt ← pyIndex item "date"
  let turl ← pyIndex item "transcriptUrl"
  let exch ← pyGetD item "exchange" Json.null
  let mcap ← pyGetD item "marketCap" Json.null
  Except.ok
    { id := i, company_name := cname, cik := ccik, ticker := tick, year := y,
      quarter := q, title := ttl, date := dt, transcript_url := turl,
      exchange := exch, market_cap := mcap }

/-- The response-mapping half of `get_transcripts`: iterate
`data.get("data", [])`, map every item, and return
`{"total": data.get("total", 0), "data": transcripts}`. -/
def mapTranscriptsPayload (payload : Json) : Except Err PagedResult := do
  let d ← pyGetD payload "data" (Json.arr [])
  let items ← asArr d
  let transcripts ← collectMapped mapTranscriptItem items
  let total ← pyGetD payload "total" (Json.num 0)
  Except.ok { total := total, data := transcripts }

/-- The query-parameter construction of `get_transcripts`:
`params = {"page": page}`, then `if company_id: params["companyId"] =
company_id` — the filter is added only when `company_id` is truthy
(`None` and `0` are both falsy in Python). -/
def buildTranscriptParams (page : Int) (company_id : Option Int) :
    List (String × Int) :=
  match company_id with
  | none => [("page", page)]
  | some cid =>
      if cid ≠ 0 then [("page", page), ("companyId", cid)]
      else [("page", page)]

/-- Embeds `CapEdgeClient.get_transcripts`: build the query parameters, perform the
GET (abstracted as `fetch`, the composition of the transport and
`raw_request`), and map the decoded payload. -/
def get_transcripts (fetch : List (String × Int) → Except Err Json)
    (page : Int) (company_id : Option Int) : Except Err PagedResult := do
  let payload ← fetch (buildTranscriptParams page company_id)
  mapTranscriptsPayload payload

/-- The required listing fields of §3/§4: `id`, `company.name`,
`company.cik`, `year`, `quarter`, `title`, `date`, `transcriptUrl` are all
present on the item. -/
def hasRequiredTranscriptFields (item : Json) : Bool :=
  hasKey item "id" &&
  (match lookupField item "company" with
   | some company => hasKey company "name" && hasKey company "cik"
   | none => false) &&
  hasKey item "year" && hasKey item "quarter" && hasKey item "title" &&
  hasKey item "date" && hasKey item "transcriptUrl"

/-! ## The transcript extractor (`parse_transcript_html`)

An HTML document as BeautifulSoup presents it: a tree of tags (name, class
list, children) and navigable strings.  Only the tag name and the `class`
attribute are consulted by the extractor, so other attributes are not
modelled. -/

/-- A parsed HTML node: a navigable string or a tag with its name, its
`class` attribute values and its children. -/
inductive Node where
  | text (s : String)
  | elem (tag : String) (classes : List String) (children : List Node)

/-- bs4 `child.name`: `None` for a navigable string, the tag name for a
tag. -/
def Node.name : Node → Option String
  | Node.text _ => none
  | Node.elem tag _ _ => some tag

/-- bs4 `tag.children`, materialised as a list (strings have none). -/
def Node.childNodes : Node → List Node
  | Node.text _ => []
  | Node.elem _ _ children => children

mutual
/-- bs4 `node.get_text()`: the concatenation of every string descendant in
document order. -/
def getText : Node → String
  | Node.text s => s
  | Node.elem _ _ children => getTextList children

def getTextList : List Node → String
  | [] => ""
  | n :: rest => getText n ++ getTextList rest
end

mutual
/-- bs4 `node.get_text(strip=True)`: as `getText`, but each string fragment
is stripped before concatenation. -/
def getTextStrip : Node → String
  | Node.text s => pyStrip s
  | Node.elem _ _ children => getTextStripList children

def getTextStripList : List Node → String
  | [] => ""
  | n :: rest => getTextStrip n ++ getTextStripList rest
end

mutual
/-- bs4 `tag.find_all("p")`: every descendant `p` tag, in document
(preorder) order. -/
def findAllP : Node → List Node
  | Node.text _ => []
  | Node.elem tag classes children =>
      (if tag = "p" then [Node.elem tag classes children] else []) ++
        findAllPList children

def findAllPList : List Node → List Node
  | [] => []
  | n :: rest => findAllP n ++ findAllPList rest
end

mutual
/-- bs4 `find("div", class_=cls)` over a node and its descendants: the first
`div` tag, in document (preorder) order, whose `class` attribute contains
`cls`. -/
def findDivByClass (cls : String) : Node → Option Node
  | Node.text _ => none
  | Node.elem tag classes children =>
      if tag = "div" ∧ cls ∈ classes then some (Node.elem tag classes children)
      else findDivByClassList cls children

def findDivByClassList (cls : String) : List Node → Option Node
  | [] => none
  | n :: rest =>
      match findDivByClass cls n with
      | some r => some r
      | none => findDivByClassList cls rest
end

/-- Python stdlib `html.unescape` (library code external to the repository),
modelled on the standard XML entities the client's payloads use: `&amp;`,
`&lt;`, `&gt;`, `&quot;`, `&#39;`.  (The stdlib also decodes the full HTML5
named and numeric entity tables; no claim depends on those.) -/
def unescapeChars : List Char → List Char
  | [] => []
  | '&' :: 'a' :: 'm' :: 'p' :: ';' :: rest => '&' :: unescapeChars rest
  | '&' :: 'l' :: 't' :: ';' :: rest => '<' :: unescapeChars rest
  | '&' :: 'g' :: 't' :: ';' :: rest => '>' :: unescapeChars rest
  | '&' :: 'q' :: 'u' :: 'o' :: 't' :: ';' :: rest => '"' :: unescapeChars rest
  | '&' :: '#' :: '3' :: '9' :: ';' :: rest => Char.ofNat 39 :: unescapeChars rest
  | c :: rest => c :: unescapeChars rest

/-- Python `html.unescape` on a string. -/
def htmlUnescape (s : String) : String :=
  ⟨unescapeChars s.toList⟩

/-- The text `html.unescape(p.get_text())`, as applied to each collected paragraph. -/
def paragraphText (p : Node) : String :=
  htmlUnescape (getText p)

/-- One transcript segment of §3's Transcript Body: a speaker and the
paragraph texts attributed to them. -/
structure Segment where
  speaker : String
  paragraphs : List String
deriving Repr, DecidableEq

/-- The cursor loop of `parse_transcript_html` over the grid's direct
children, at the segment level: an `h3` child records its stripped text as
the current speaker and advances the cursor; when a child remains at the
cursor, its paragraphs are collected if it is a `div` (nothing otherwise)
and the cursor advances past it either way; any other child is skipped. -/
def parseGridChildren : List Node → List Segment
  | [] => []
  | child :: rest =>
      if child.name = some "h3" then
        match rest with
        | [] => [{ speaker := getTextStrip child, paragraphs := [] }]
        | next :: rest2 =>
            { speaker := getTextStrip child,
              paragraphs :=
                if next.name = some "div" then (findAllP next).map paragraphText
                else [] } :: parseGridChildren rest2
      else parseGridChildren rest

/-- The same cursor loop at the line level, exactly as
`examples/fetch_recent_transcripts.py` accumulates `lines`: an `h3` child
appends `"\n[" ++ speaker ++ "]\n"`, a following `div` appends each
paragraph's unescaped text. -/
def parseGridLines : List Node → List String
  | [] => []
  | child :: rest =>
      if child.name = some "h3" then
        let speakerLine := "\n[" ++ getTextStrip child ++ "]\n"
        match rest with
        | [] => [speakerLine]
        | next :: rest2 =>
            speakerLine ::
              ((if next.name = some "div" then (findAllP next).map paragraphText
                else []) ++ parseGridLines rest2)
      else parseGridLines rest

/-- Embeds `parse_transcript_html` from `examples/fetch_recent_transcripts.py`,
applied to the parsed document (a list of top-level nodes): locate the first
`div.r6o-annotatable`, inside it the first `div.grid`, walk the grid's
direct children, and join the accumulated lines with newlines; an absent
container yields `""`. -/
def parse_transcript_html (doc : List Node) : String :=
  match findDivByClassList "r6o-annotatable" doc with
  | none => ""
  | some transcript_grid =>
      match findDivByClassList "grid" transcript_grid.childNodes with
      | none => ""
      | some grid_div => "\n".intercalate (parseGridLines grid_div.childNodes)

/-- The extractor at the Transcript-Body level of §3: the segments the
cursor loop produces, or the empty sequence when a container is absent. -/
def extractTranscript (doc : List Node) : List Segment :=
  match findDivByClassList "r6o-annotatable" doc with
  | none => []
  | some transcript_grid =>
      match findDivByClassList "grid" transcript_grid.childNodes with
      | none => []
      | some grid_div => parseGridChildren grid_div.childNodes

/-! ## Example nodes used by concrete instantiations -/

/-- An `<h3>` heading carrying one text child. -/
def h3 (s : String) : Node := Node.elem "h3" [] [Node.text s]

/-- A `<p>` paragraph carrying one text child. -/
def para (s : String) : Node := Node.elem "p" [] [Node.text s]

/-- A plain `<div>` with the given children. -/
def dv (children : List Node) : Node := Node.elem "div" [] children

/-! ## Helper lemmas -/

theorem exceptBindOk {α β : Type} {x : Except Err α} {f : α → Except Err β}
    {b : β} (h : x >>= f = Except.ok b) :
    ∃ a, x = Except.ok a ∧ f a = Except.ok b := by
  cases x with
  | error e => exact (nomatch h)
  | ok a => exact ⟨a, rfl, h⟩

theorem exceptBindError {α β : Type} {x : Except Err α} {f : α → Except Err β}
    {e : Err} (h : x = Except.error e) : x >>= f = Except.error e := by
  rw [h]; rfl

theorem cookie_foldl_filterMap (items : List String)
    (acc : List (String × String)) :
    items.foldl
        (fun cookies item =>
          if containsEq item then
            let kv := splitEqOnce item
            dictInsert cookies kv.1 kv.2
          else cookies) acc =
      (items.filterMap
          (fun item =>
            if containsEq item then some (splitEqOnce item) else none)).foldl
        (fun cookies kv => dictInsert cookies kv.1 kv.2) acc := by
  induction items generalizing acc with
  | nil => rfl
  | cons x xs ih =>
      by_cases hx : containsEq x
      · simp only [List.foldl_cons, List.filterMap_cons, hx, if_pos, ih]
      · simp only [List.foldl_cons, List.filterMap_cons, hx, if_neg, ih,
          Bool.false_eq_true, ite_false]

/-! ## C7 — cookie string parsing -/

/-- C7: `from_cookie_string` splits the cookie string on `"; "`, keeps only
segments containing `'='`, maps the part of each before its first `'='` to
the part after it (building the dict in order), and in particular parses
`"a=1; b=2; malformed; c=3"` to `{a: "1", b: "2", c: "3"}`, silently
dropping the segment without `'='`. -/
theorem c7_cookie_string_parsing :
    (∀ cookie_string : String,
        from_cookie_string cookie_string =
          ((splitSemiSpace cookie_string).filterMap
              (fun item =>
                if containsEq item then some (splitEqOnce item) else none)).foldl
            (fun cookies kv => dictInsert cookies kv.1 kv.2) []) ∧
    from_cookie_string "a=1; b=2; malformed; c=3" =
      [("a", "1"), ("b", "2"), ("c", "3")] :=
  ⟨fun s => cookie_foldl_filterMap (splitSemiSpace s) [], by decide⟩

/-- C7 witness: the parser applied to a concrete cookie string through the
claim theorem. -/
theorem c7_cookie_string_parsing_witness :
    from_cookie_string "x=a=b; y" = [("x", "a=b")] :=
  (c7_cookie_string_parsing.1 "x=a=b; y").trans (by decide)

/-! ## C2 — HTML bodies and session expiry -/

/-- C2 counterexample: a GET that returns an HTTP error status with an HTML
body fails with the HTTP (transport) error from `raise_for_status`, not with
the session-expired condition, although the body begins with
`<!DOCTYPE html>`.  So "for every GET ... fails with SessionExpired" is
false as stated. -/
theorem c2_counterexample :
    pyStartswith "<!DOCTYPE html><html><body>Not Found</body></html>"
        "<!DOCTYPE html>" = true ∧
    raw_request (fun _ => none)
        { status := 404,
          text := "<!DOCTYPE html><html><body>Not Found</body></html>" } =
      Except.error (Err.httpError 404) ∧
    raw_request (fun _ => none)
        { status := 404,
          text := "<!DOCTYPE html><html><body>Not Found</body></html>" } ≠
      Except.error Err.sessionExpired := by
  refine ⟨by decide, rfl, fun h => ?_⟩
  rw [show raw_request (fun _ => none)
        { status := 404,
          text := "<!DOCTYPE html><html><body>Not Found</body></html>" } =
      Except.error (Err.httpError 404) from rfl] at h
  injection h with h2
  exact (nomatch h2)

/-- C2 (amended): for every GET whose HTTP status survives
`raise_for_status` (status outside `[400, 600)`), a response body beginning
with an HTML document marker fails with the session-expired condition —
distinct from the malformed-JSON condition — and never with a JSON-decode
error; the JSON decoder is never consulted on such a body (the outcome does
not depend on it). -/
theorem c2_html_body_session_expired (decode : String → Option Json)
    (resp : HttpResponse) (hm : isHtmlBody resp.text = true) :
    (¬(400 ≤ resp.status ∧ resp.status < 600) →
        raw_request decode resp = Except.error Err.sessionExpired) ∧
    raw_request decode resp ≠ Except.error Err.jsonDecodeError ∧
    (∀ decode2, raw_request decode resp = raw_request decode2 resp) ∧
    Err.sessionExpired ≠ Err.jsonDecodeError := by
  unfold raw_request
  by_cases hs : 400 ≤ resp.status ∧ resp.status < 600
  · simp [hs, hm]
  · simp [hs, hm]

/-- C2 witness: a successful-status GET with an HTML body raises the
session-expired condition, through the amended theorem. -/
theorem c2_html_body_session_expired_witness :
    isHtmlBody "<!DOCTYPE html><p>please log in</p>" = true ∧
    raw_request (fun _ => none)
        { status := 200, text := "<!DOCTYPE html><p>please log in</p>" } =
      Except.error Err.sessionExpired :=
  ⟨by decide,
   (c2_html_body_session_expired (fun _ => none)
      { status := 200, text := "<!DOCTYPE html><p>please log in</p>" }
      (by decide)).1 (by decide)⟩

/-! ## C6 — the companyId parameter -/

/-- C6: `get_transcripts` includes the `companyId` query parameter iff the
supplied `company_id` is truthy; when it is unset (`none`) or zero, the
request parameters are exactly `{"page": page}` with no `companyId` key at
all, and when it is a non-zero integer they are
`{"page": page, "companyId": cid}`. -/
theorem c6_companyId_iff_truthy (page : Int) (company_id : Option Int) :
    ((∃ v, ("companyId", v) ∈ buildTranscriptParams page company_id) ↔
        (∃ cid, company_id = some cid ∧ cid ≠ 0)) ∧
    (company_id = none ∨ company_id = some 0 →
        buildTranscriptParams page company_id = [("page", page)]) ∧
    (∀ cid, company_id = some cid → cid ≠ 0 →
        buildTranscriptParams page company_id =
          [("page", page), ("companyId", cid)]) := by
  cases company_id with
  | none => simp [buildTranscriptParams]
  | some cid =>
      by_cases hc : cid = 0
      · subst hc; simp [buildTranscriptParams]
      · simp [buildTranscriptParams, hc]

/-- C6 witness: zero and a real CIK, through the claim theorem. -/
theorem c6_companyId_iff_truthy_witness :
    buildTranscriptParams 1 (some 0) = [("page", 1)] ∧
    buildTranscriptParams 1 (some 320193) =
      [("page", 1), ("companyId", 320193)] :=
  ⟨(c6_companyId_iff_truthy 1 (some 0)).2.1 (Or.inr rfl),
   (c6_companyId_iff_truthy 1 (some 320193)).2.2 320193 rfl (by decide)⟩

/-! ## Helper lemmas for the mapper -/

theorem ok_bind {α β : Type} (a : α) (f : α → Except Err β) :
    (Except.ok a >>= f) = f a := rfl

theorem error_bind {α β : Type} (e : Err) (f : α → Except Err β) :
    (Except.error e >>= f) = Except.error e := rfl

theorem pyIndex_ok_lookup {j : Json} {k : String} {v : Json}
    (h : pyIndex j k = Except.ok v) : lookupField j k = some v := by
  cases j with
  | obj fields =>
      simp only [pyIndex] at h
      simp only [lookupField]
      cases hl : List.lookup k fields with
      | none => simp only [hl] at h; exact (nomatch h)
      | some w => simp only [hl] at h; injection h with h2; rw [h2]
  | null => exact (nomatch h)
  | bool b => exact (nomatch h)
  | num n => exact (nomatch h)
  | str s => exact (nomatch h)
  | arr elems => exact (nomatch h)

theorem lookup_hasKey {j : Json} {k : String} {v : Json}
    (h : lookupField j k = some v) : hasKey j k = true := by
  cases j with
  | obj fields =>
      simp only [lookupField] at h
      simp only [hasKey, h]
      rfl
  | null => exact (nomatch h)
  | bool b => exact (nomatch h)
  | num n => exact (nomatch h)
  | str s => exact (nomatch h)
  | arr elems => exact (nomatch h)

theorem collectMapped_mem_error {α β : Type} {f : α → Except Err β} {x : α} :
    ∀ {xs : List α}, x ∈ xs → ∀ {e : Err}, f x = Except.error e →
      ∃ e2, collectMapped f xs = Except.error e2 := by
  intro xs
  induction xs with
  | nil => intro hmem; cases hmem
  | cons y ys ih =>
      intro hmem e hx
      cases hmem with
      | head => exact ⟨e, exceptBindError hx⟩
      | tail _ hmem2 =>
          cases hfy : f y with
          | error e3 => exact ⟨e3, exceptBindError hfy⟩
          | ok b =>
              obtain ⟨e2, hcol⟩ := ih hmem2 hx
              refine ⟨e2, ?_⟩
              show (f y >>= fun b => collectMapped f ys >>= fun bs =>
                  Except.ok (b :: bs)) = Except.error e2
              rw [hfy, ok_bind, hcol]
              rfl

theorem collectMapped_ok_length {α β : Type} {f : α → Except Err β} :
    ∀ {xs : List α} {ys : List β}, collectMapped f xs = Except.ok ys →
      ys.length = xs.length
  | [], ys, h => by injection h with h2; rw [← h2]; rfl
  | x :: xs, ys, h => by
      obtain ⟨b, hb, h⟩ := exceptBindOk h
      obtain ⟨bs, hbs, h⟩ := exceptBindOk h
      injection h with h2
      rw [← h2]
      simp [collectMapped_ok_length hbs]

theorem mapTranscriptItem_ok_required {item : Json} {t : Transcript}
    (h : mapTranscriptItem item = Except.ok t) :
    hasRequiredTranscriptFields item = true := by
  unfold mapTranscriptItem at h
  obtain ⟨i, hi, h⟩ := exceptBindOk h
  obtain ⟨company1, hc1, h⟩ := exceptBindOk h
  obtain ⟨cname, hname, h⟩ := exceptBindOk h
  obtain ⟨company2, hc2, h⟩ := exceptBindOk h
  obtain ⟨ccik, hcik, h⟩ := exceptBindOk h
  obtain ⟨tick, htick, h⟩ := exceptBindOk h
  obtain ⟨y, hy, h⟩ := exceptBindOk h
  obtain ⟨q, hq, h⟩ := exceptBindOk h
  obtain ⟨ttl, httl, h⟩ := exceptBindOk h
  obtain ⟨dt, hdt, h⟩ := exceptBindOk h
  obtain ⟨turl, hturl, h⟩ := exceptBindOk h
  have l1 := pyIndex_ok_lookup hi
  have l2 := pyIndex_ok_lookup hc1
  have l3 := pyIndex_ok_lookup hname
  have l4 := pyIndex_ok_lookup hc2
  have l5 := pyIndex_ok_lookup hcik
  have l6 := pyIndex_ok_lookup hy
  have l7 := pyIndex_ok_lookup hq
  have l8 := pyIndex_ok_lookup httl
  have l9 := pyIndex_ok_lookup hdt
  have l10 := pyIndex_ok_lookup hturl
  have e12 : company2 = company1 := by
    rw [l2] at l4; exact (Option.some.inj l4).symm
  rw [e12] at l5
  unfold hasRequiredTranscriptFields
  rw [l2]
  simp [lookup_hasKey l1, lookup_hasKey l3, lookup_hasKey l5, lookup_hasKey l6,
    lookup_hasKey l7, lookup_hasKey l8, lookup_hasKey l9, lookup_hasKey l10]

/-! ## C4 — findCompanyCik and the first search result -/

/-- C4: `find_company_cik` returns `None` exactly when `search_company`
yields the empty list, and when the list is non-empty it returns
`int(companies[0].cik)` — the integer conversion of the first result's cik
(first-wins, upstream order). -/
theorem c4_find_company_cik (payload : Json) (companies : List Company)
    (hs : search_company payload = Except.ok companies) :
    (companies = [] → find_company_cik payload = Except.ok none) ∧
    (∀ c rest, companies = c :: rest → ∀ n : Int, pyInt c.cik = Except.ok n →
        find_company_cik payload = Except.ok (some n)) ∧
    (find_company_cik payload = Except.ok none → companies = []) := by
  unfold find_company_cik
  rw [hs, ok_bind]
  refine ⟨?_, ?_, ?_⟩
  · intro h; rw [h]
  · intro c rest hcr n hn
    rw [hcr]
    show (pyInt c.cik >>= fun n => Except.ok (some n)) = Except.ok (some n)
    rw [hn, ok_bind]
  · intro h
    cases companies with
    | nil => rfl
    | cons c rest =>
        exfalso
        obtain ⟨n, hn, h2⟩ := exceptBindOk h
        injection h2 with h3
        exact (nomatch h3)

/-- C4 witness: a one-result search payload and an empty search payload,
through the claim theorem. -/
theorem c4_find_company_cik_witness :
    find_company_cik (Json.obj [("data", Json.arr
        [Json.obj [("value", Json.str "320193"),
                   ("label", Json.str "Apple Inc")]])]) =
      Except.ok (some 320193) ∧
    find_company_cik (Json.obj [("data", Json.arr [])]) = Except.ok none := by
  constructor
  · exact (c4_find_company_cik
        (Json.obj [("data", Json.arr
          [Json.obj [("value", Json.str "320193"),
                     ("label", Json.str "Apple Inc")]])])
        [{ cik := Json.str "320193", name := Json.str "Apple Inc",
           ticker := Json.null }] rfl).2.1 _ _ rfl 320193 rfl
  · exact (c4_find_company_cik (Json.obj [("data", Json.arr [])])
        [] rfl).1 rfl

/-! ## C3 — missing required listing fields -/

/-- C3: a transcript listing item lacking any required field (`id`,
`company.name`, `company.cik`, `year`, `quarter`, `title`, `date`,
`transcriptUrl`) makes the item mapper raise, and the failure surfaces
through `get_transcripts`' payload mapping — no `Transcript` with a
defaulted required field is produced. -/
theorem c3_missing_required_field_errors (item : Json)
    (hmiss : hasRequiredTranscriptFields item = false) :
    (∃ e, mapTranscriptItem item = Except.error e) ∧
    (∀ payload ditems, lookupField payload "data" = some (Json.arr ditems) →
        item ∈ ditems →
        ∃ e, mapTranscriptsPayload payload = Except.error e) := by
  have herr : ∃ e, mapTranscriptItem item = Except.error e := by
    cases hmap : mapTranscriptItem item with
    | error e => exact ⟨e, rfl⟩
    | ok t =>
        exfalso
        rw [mapTranscriptItem_ok_required hmap] at hmiss
        exact (nomatch hmiss)
  refine ⟨herr, ?_⟩
  intro payload ditems hd hmem
  obtain ⟨e1, hmap⟩ := herr
  obtain ⟨e2, hcol⟩ := collectMapped_mem_error hmem hmap
  cases payload with
  | obj fields =>
      have hd' : List.lookup "data" fields = some (Json.arr ditems) := hd
      refine ⟨e2, ?_⟩
      simp only [mapTranscriptsPayload, pyGetD, hd', Option.getD_some, ok_bind,
        asArr, hcol, error_bind]
  | null => exact (nomatch hd)
  | bool b => exact (nomatch hd)
  | num n => exact (nomatch hd)
  | str s => exact (nomatch hd)
  | arr elems => exact (nomatch hd)

/-- C3 witness: an item carrying only `id` makes both the item mapper and
the payload mapper fail, through the claim theorem. -/
theorem c3_missing_required_field_errors_witness :
    hasRequiredTranscriptFields (Json.obj [("id", Json.str "t1")]) = false ∧
    (∃ e, mapTranscriptItem (Json.obj [("id", Json.str "t1")]) =
        Except.error e) ∧
    (∃ e, mapTranscriptsPayload
        (Json.obj [("data", Json.arr [Json.obj [("id", Json.str "t1")]])]) =
      Except.error e) := by
  have h := c3_missing_required_field_errors
    (Json.obj [("id", Json.str "t1")]) (by decide)
  exact ⟨by decide, h.1, h.2 _ _ rfl (List.mem_singleton.mpr rfl)⟩

/-! ## C10 — the optional listing fields -/

/-- C10: a listing item carrying every required field maps successfully even
when `ticker` is absent — the record's ticker defaults to `""` — and an
absent `exchange` or `marketCap` yields the unset (`None`) optional. -/
theorem c10_missing_ticker_defaults (item : Json)
    (hreq : hasRequiredTranscriptFields item = true) :
    ∃ t, mapTranscriptItem item = Except.ok t ∧
      (hasKey item "ticker" = false → t.ticker = Json.str "") ∧
      (hasKey item "exchange" = false → t.exchange = Json.null) ∧
      (hasKey item "marketCap" = false → t.market_cap = Json.null) := by
  cases item with
  | obj fields =>
      rw [hasRequiredTranscriptFields] at hreq
      simp only [lookupField, hasKey, Bool.and_eq_true] at hreq
      obtain ⟨⟨⟨⟨⟨⟨hid, hcomp⟩, hyear⟩, hq⟩, httl⟩, hdt⟩, hturl⟩ := hreq
      obtain ⟨vid, hvid⟩ := Option.isSome_iff_exists.mp hid
      obtain ⟨vy, hvy⟩ := Option.isSome_iff_exists.mp hyear
      obtain ⟨vq, hvq⟩ := Option.isSome_iff_exists.mp hq
      obtain ⟨vttl, hvttl⟩ := Option.isSome_iff_exists.mp httl
      obtain ⟨vdt, hvdt⟩ := Option.isSome_iff_exists.mp hdt
      obtain ⟨vturl, hvturl⟩ := Option.isSome_iff_exists.mp hturl
      cases hcomp2 : List.lookup "company" fields with
      | none => rw [hcomp2] at hcomp; exact (nomatch hcomp)
      | some comp =>
          rw [hcomp2] at hcomp
          simp only [Bool.and_eq_true] at hcomp
          obtain ⟨hn, hk⟩ := hcomp
          cases comp with
          | obj fields2 =>
              simp only [hasKey] at hn hk
              obtain ⟨vname, hvname⟩ := Option.isSome_iff_exists.mp hn
              obtain ⟨vcik, hvcik⟩ := Option.isSome_iff_exists.mp hk
              refine
                ⟨{ id := vid, company_name := vname, cik := vcik,
                   ticker := (List.lookup "ticker" fields).getD (Json.str ""),
                   year := vy, quarter := vq, title := vttl, date := vdt,
                   transcript_url := vturl,
                   exchange := (List.lookup "exchange" fields).getD Json.null,
                   market_cap :=
                     (List.lookup "marketCap" fields).getD Json.null },
                 ?_, ?_, ?_, ?_⟩
              · simp only [mapTranscriptItem, pyIndex, pyGetD, hvid, hcomp2,
                  hvname, hvcik, hvy, hvq, hvttl, hvdt, hvturl, ok_bind]
              · intro hf
                simp only [hasKey] at hf
                show (List.lookup "ticker" fields).getD (Json.str "") =
                  Json.str ""
                cases hcase : List.lookup "ticker" fields with
                | none => rfl
                | some w => rw [hcase] at hf; exact (nomatch hf)
              · intro hf
                simp only [hasKey] at hf
                show (List.lookup "exchange" fields).getD Json.null = Json.null
                cases hcase : List.lookup "exchange" fields with
                | none => rfl
                | some w => rw [hcase] at hf; exact (nomatch hf)
              · intro hf
                simp only [hasKey] at hf
                show (List.lookup "marketCap" fields).getD Json.null = Json.null
                cases hcase : List.lookup "marketCap" fields with
                | none => rfl
                | some w => rw [hcase] at hf; exact (nomatch hf)
          | null => exact (nomatch hn)
          | bool b => exact (nomatch hn)
          | num n => exact (nomatch hn)
          | str s => exact (nomatch hn)
          | arr elems => exact (nomatch hn)
  | null => exact (nomatch hreq)
  | bool b => exact (nomatch hreq)
  | num n => exact (nomatch hreq)
  | str s => exact (nomatch hreq)
  | arr elems => exact (nomatch hreq)

/-- C10 witness: an item with all required fields and no `ticker`,
`exchange` or `marketCap`, through the claim theorem. -/
theorem c10_missing_ticker_defaults_witness :
    ∃ t, mapTranscriptItem (Json.obj
        [("id", Json.str "t1"),
         ("company", Json.obj [("name", Json.str "Acme"),
                               ("cik", Json.num 99)]),
         ("year", Json.num 2024), ("quarter", Json.num 1),
         ("title", Json.str "Q1 call"), ("date", Json.str "2024-05-01"),
         ("transcriptUrl", Json.str "https://capedge.com/t/1")]) =
      Except.ok t ∧
      t.ticker = Json.str "" ∧ t.exchange = Json.null ∧
      t.market_cap = Json.null := by
  obtain ⟨t, hok, h1, h2, h3⟩ := c10_missing_ticker_defaults
    (Json.obj
      [("id", Json.str "t1"),
       ("company", Json.obj [("name", Json.str "Acme"),
                             ("cik", Json.num 99)]),
       ("year", Json.num 2024), ("quarter", Json.num 1),
       ("title", Json.str "Q1 call"), ("date", Json.str "2024-05-01"),
       ("transcriptUrl", Json.str "https://capedge.com/t/1")]) (by decide)
  exact ⟨t, hok, h1 (by decide), h2 (by decide), h3 (by decide)⟩

/-! ## C5 — the paged-result invariant -/

/-- Modelled from the spec: a "valid paged response" for a requested page
size — the payload carries a `data` array that fits the page and an integer
`total` that is at least the number of items delivered (`total` is
authoritative even for a partial page). -/
def validPagedPayload (payload : Json) (pageSize : Nat) : Prop :=
  ∃ items total, lookupField payload "data" = some (Json.arr items) ∧
    lookupField payload "total" = some (Json.num total) ∧
    items.length ≤ pageSize ∧ (items.length : Int) ≤ total

/-- C5: mapping a valid paged response yields a `PagedResult` whose record
count is within the requested page size and whose `total` is an integer at
least that count — the mapper maps items one-for-one and passes `total`
through. -/
theorem c5_paged_result_invariant (payload : Json) (pageSize : Nat)
    (result : PagedResult) (hvalid : validPagedPayload payload pageSize)
    (hok : mapTranscriptsPayload payload = Except.ok result) :
    result.data.length ≤ pageSize ∧
      ∃ total : Int, result.total = Json.num total ∧
        (result.data.length : Int) ≤ total := by
  obtain ⟨items, total, hdata, htotal, hsize, htot⟩ := hvalid
  cases payload with
  | obj fields =>
      have hd' : List.lookup "data" fields = some (Json.arr items) := hdata
      have ht' : List.lookup "total" fields = some (Json.num total) := htotal
      simp only [mapTranscriptsPayload, pyGetD, hd', ht', Option.getD_some,
        ok_bind, asArr] at hok
      obtain ⟨ts, hts, h2⟩ := exceptBindOk hok
      injection h2 with h3
      rw [← h3]
      have hlen := collectMapped_ok_length hts
      constructor
      · simpa [hlen] using hsize
      · exact ⟨total, rfl, by simpa [hlen] using htot⟩
  | null => exact (nomatch hdata)
  | bool b => exact (nomatch hdata)
  | num n => exact (nomatch hdata)
  | str s => exact (nomatch hdata)
  | arr elems => exact (nomatch hdata)

/-- C5 witness: an empty page with `total = 7`, through the claim
theorem. -/
theorem c5_paged_result_invariant_witness :
    mapTranscriptsPayload
        (Json.obj [("data", Json.arr []), ("total", Json.num 7)]) =
      Except.ok { total := Json.num 7, data := [] } ∧
    ({ total := Json.num 7, data := [] } : PagedResult).data.length ≤ 5 ∧
    ∃ total : Int,
      ({ total := Json.num 7, data := [] } : PagedResult).total =
          Json.num total ∧
        (({ total := Json.num 7, data := [] } : PagedResult).data.length :
          Int) ≤ total := by
  refine ⟨rfl, ?_⟩
  exact c5_paged_result_invariant
    (Json.obj [("data", Json.arr []), ("total", Json.num 7)]) 5
    { total := Json.num 7, data := [] }
    ⟨[], 7, rfl, rfl, by decide, by decide⟩ rfl

/-! ## C1 — extraction of an alternating heading/container grid -/

/-- C1: on a grid whose direct children are a heading then a container,
repeated, the cursor loop yields one segment per heading, in document order,
pairing the heading's stripped text with the entity-decoded text of every
paragraph inside the container that immediately follows it. -/
theorem c1_alternating_grid_extraction (pairs : List (Node × Node))
    (hh : ∀ p ∈ pairs, p.1.name = some "h3" ∧ p.2.name = some "div") :
    parseGridChildren ((pairs.map (fun p => [p.1, p.2])).flatten) =
      pairs.map (fun p =>
        { speaker := getTextStrip p.1,
          paragraphs := (findAllP p.2).map paragraphText }) := by
  induction pairs with
  | nil => rfl
  | cons p ps ih =>
      obtain ⟨h1, h2⟩ := hh p (List.mem_cons_self p ps)
      have ihh := ih (fun q hq => hh q (List.mem_cons_of_mem p hq))
      simp [parseGridChildren, h1, h2, ihh]

/-- C1 witness: the spec's example grid
`[h3("Alice"), div[p("Hi"), p("There")], h3("Bob"), div[p("Yo")]]`, through
the claim theorem. -/
theorem c1_alternating_grid_extraction_witness :
    parseGridChildren
        (([(h3 "Alice", dv [para "Hi", para "There"]),
           (h3 "Bob", dv [para "Yo"])].map (fun p => [p.1, p.2])).flatten) =
      [{ speaker := "Alice", paragraphs := ["Hi", "There"] },
       { speaker := "Bob", paragraphs := ["Yo"] }] :=
  (c1_alternating_grid_extraction
      [(h3 "Alice", dv [para "Hi", para "There"]), (h3 "Bob", dv [para "Yo"])]
      (by decide)).trans (by decide)

/-! ## C9 — a heading not followed by a container -/

/-- C9: a heading followed by any non-container child yields that speaker
with zero paragraphs, and the following child is consumed unprocessed (so an
adjacent second heading is not emitted as a speaker); a heading that is the
last child is also emitted with zero paragraphs. -/
theorem c9_heading_then_nondiv (a b : Node) (rest : List Node)
    (ha : a.name = some "h3") (hb : b.name ≠ some "div") :
    parseGridChildren (a :: b :: rest) =
      { speaker := getTextStrip a, paragraphs := [] } ::
        parseGridChildren rest ∧
    parseGridChildren [a] =
      [{ speaker := getTextStrip a, paragraphs := [] }] := by
  constructor
  · simp [parseGridChildren, ha, hb]
  · simp [parseGridChildren, ha]

/-- C9 witness: two adjacent headings — `Bob` is consumed and never appears
as a speaker — through the claim theorem. -/
theorem c9_heading_then_nondiv_witness :
    parseGridChildren [h3 "Alice", h3 "Bob", dv [para "Yo"]] =
      [{ speaker := "Alice", paragraphs := [] }] := by
  have h := c9_heading_then_nondiv (h3 "Alice") (h3 "Bob") [dv [para "Yo"]]
    (by decide) (by decide)
  rw [h.1]
  decide

/-! ## C8 — absent containers yield an empty transcript -/

/-- C8: when the annotatable container is absent, or present but without a
nested grid container, extraction returns the empty transcript — the empty
segment sequence and the empty text — and no error. -/
theorem c8_absent_containers_empty (doc : List Node)
    (h : ∀ tg, findDivByClassList "r6o-annotatable" doc = some tg →
        findDivByClassList "grid" tg.childNodes = none) :
    extractTranscript doc = [] ∧ parse_transcript_html doc = "" := by
  cases hf : findDivByClassList "r6o-annotatable" doc with
  | none =>
      constructor
      · simp only [extractTranscript, hf]
      · simp only [parse_transcript_html, hf]
  | some tg =>
      have hg := h tg hf
      constructor
      · simp only [extractTranscript, hf, hg]
      · simp only [parse_transcript_html, hf, hg]

/-- C8 witness: a document with no annotatable container, and one whose
annotatable container has no grid, through the claim theorem. -/
theorem c8_absent_containers_empty_witness :
    extractTranscript [Node.elem "body" [] [Node.text "no transcript"]] =
        [] ∧
    parse_transcript_html [Node.elem "body" [] [Node.text "no transcript"]] =
        "" ∧
    extractTranscript
        [Node.elem "div" ["r6o-annotatable"] [Node.text "x"]] = [] := by
  have h1 := c8_absent_containers_empty
    [Node.elem "body" [] [Node.text "no transcript"]]
    (fun tg htg => nomatch htg)
  have h2 := c8_absent_containers_empty
    [Node.elem "div" ["r6o-annotatable"] [Node.text "x"]]
    (fun tg htg => by rw [← Option.some.inj htg]; rfl)
  exact ⟨h1.1, h1.2, h2.1⟩

end CapEdge
